import Mathlib

/-!
Shallow embedding of the data-quality and geometric-reconciliation engine of
the geo-data-analysis pipeline (scripts 4, 5, 7, 8, 9 and 10 of the
repository), together with theorems settling the specification claims.
Numeric values are modelled as rationals; missing values (NaN in pandas) are
modelled with Option.
-/

namespace GeoAudit

/-- Python int() applied to a rational: truncation toward zero. -/
def pyInt (q : ℚ) : ℤ := if 0 ≤ q then ⌊q⌋ else ⌈q⌉

/-- Python round to the nearest integer with ties going to the even integer
(banker's rounding), on an exact rational value. -/
def pyRoundInt (q : ℚ) : ℤ :=
  let f := ⌊q⌋
  let r := q - f
  if r < 1/2 then f
  else if 1/2 < r then f + 1
  else if f % 2 = 0 then f else f + 1

/-- Python round(x, 2) on an exact rational value. -/
def pyRound2 (q : ℚ) : ℚ := (pyRoundInt (q * 100) : ℚ) / 100

/-- Interface to the geometric primitives used by script 10 (the shapely
methods intersects, intersection, is_empty and area).  The script uses these
as black boxes; theorems take the symmetry facts they need as hypotheses. -/
structure GeomApi (α : Type) where
  intersects : α → α → Bool
  intersection : α → α → α
  isEmpty : α → Bool
  area : α → ℚ

/-- One feature of parcelles_clean.geojson: a Farms_ID and a geometry. -/
structure Parcel (ι α : Type) where
  farmsId : ι
  geom : α
  deriving DecidableEq

/-- One row of resume_chevauchements.csv produced by script 10; the last
field stores round(ratio * 100, 2) exactly as the source does. -/
structure OverlapRec (ι : Type) where
  id_1 : ι
  id_2 : ι
  pourcentage_chevauchement : ℚ
  deriving DecidableEq

/-- Overlap ratio of script 10: the intersection area divided by each of the
two parcel areas, keeping the larger of the two quotients. -/
def overlapRatio (api : GeomApi α) (g1 g2 : α) : ℚ :=
  max (api.area (api.intersection g1 g2) / api.area g1)
      (api.area (api.intersection g1 g2) / api.area g2)

/-- Body of the double loop of script 10 for one pair of parcels: an
OverlapRec when the pair qualifies, nothing otherwise. -/
def pairRecord (api : GeomApi α) (p q : Parcel ι α) : Option (OverlapRec ι) :=
  if api.intersects p.geom q.geom then
    let inter := api.intersection p.geom q.geom
    if api.isEmpty inter then none
    else
      let ratio := max (api.area inter / api.area p.geom)
                      (api.area inter / api.area q.geom)
      if 15/100 < ratio then
        some ⟨p.farmsId, q.farmsId, pyRound2 (ratio * 100)⟩
      else none
  else none

/-- All position pairs (i, j) with i < j of a list, in the iteration order
of the nested loops of script 10 (outer index ascending, inner index
ascending from the outer index plus one). -/
def pairsUpper : List β → List (β × β)
  | [] => []
  | x :: xs => xs.map (fun y => (x, y)) ++ pairsUpper xs

/-- Embedding of the overlaps loop of script 10. -/
def detectOverlaps (api : GeomApi α) (parcels : List (Parcel ι α)) :
    List (OverlapRec ι) :=
  (pairsUpper parcels).filterMap fun pq => pairRecord api pq.1 pq.2

/-- Qualification test of script 10 for a pair of parcels: the geometries
intersect, the intersection is not empty, and the overlap ratio exceeds
fifteen percent. -/
def qualifies (api : GeomApi α) (p q : Parcel ι α) : Bool :=
  api.intersects p.geom q.geom
    && !api.isEmpty (api.intersection p.geom q.geom)
    && decide (15/100 < overlapRatio api p.geom q.geom)

/-- Axis-aligned rational rectangle: a concrete geometry type on which the
shapely primitives have exact rational semantics, used for witnesses. -/
structure Rect where
  x0 : ℚ
  y0 : ℚ
  x1 : ℚ
  y1 : ℚ
  deriving DecidableEq

/-- Intersection of two closed axis-aligned rectangles. -/
def Rect.inter (a b : Rect) : Rect :=
  ⟨max a.x0 b.x0, max a.y0 b.y0, min a.x1 b.x1, min a.y1 b.y1⟩

/-- Emptiness of a closed axis-aligned rectangle. -/
def rectIsEmpty (a : Rect) : Bool := decide (a.x1 < a.x0 ∨ a.y1 < a.y0)

/-- Area of a closed axis-aligned rectangle. -/
def Rect.area (a : Rect) : ℚ := max 0 (a.x1 - a.x0) * max 0 (a.y1 - a.y0)

/-- The geometric interface instantiated with exact rectangles. -/
def rectApi : GeomApi Rect where
  intersects a b := !rectIsEmpty (Rect.inter a b)
  intersection := Rect.inter
  isEmpty := rectIsEmpty
  area := Rect.area

/-- Predicate on an OverlapRec: the record names the unordered identifier
pair made of a and b, in either field order. -/
def mentionsPair [DecidableEq ι] (a b : ι) (r : OverlapRec ι) : Bool :=
  decide ((r.id_1 = a ∧ r.id_2 = b) ∨ (r.id_1 = b ∧ r.id_2 = a))

/-- Witness parcel with identifier 1: a ten-by-ten square of area 100. -/
def pA : Parcel ℕ Rect := ⟨1, ⟨0, 0, 10, 10⟩⟩

/-- Witness parcel with identifier 2: a five-by-ten rectangle of area 50
overlapping pA in an area of 20.  The overlap ratio is max(20/100, 20/50)
= 0.40. -/
def pB : Parcel ℕ Rect := ⟨2, ⟨8, 0, 13, 10⟩⟩

/-- One row of coop_producteurs_clean.csv as used by checks 3 and 4 of
script 5; numeric columns are either a number or absent (NaN). -/
structure ProdRow where
  code_producteur : String
  superficie_totale_cacao_ha : Option ℚ
  estimation_totale_kg : Option ℚ
  deriving DecidableEq

/-- One row of coop_plantations_clean.csv as used by script 5. -/
structure PlantRow where
  code_plantation : String
  code_producteur : String
  superficie_cacao_ha : Option ℚ
  estimation_kg : Option ℚ
  deriving DecidableEq

/-- Sum of a numeric pandas column: NaN entries are skipped and an empty or
all-NaN column sums to zero. -/
def sumOpt (l : List (Option ℚ)) : ℚ := (l.map (fun v => v.getD 0)).sum

/-- Plantation rows grouped under one producer code by the groupby of
script 5. -/
def plantGroup (plants : List PlantRow) (code : String) : List PlantRow :=
  plants.filter (fun r => r.code_producteur == code)

/-- Aggregated plantation surface for one producer code: pandas groupby
yields a group only when at least one row carries the code, so after the
left merge of script 5 the producer has no aggregate (NaN) otherwise. -/
def aggSurface (plants : List PlantRow) (code : String) : Option ℚ :=
  if (plantGroup plants code).isEmpty then none
  else some (sumOpt ((plantGroup plants code).map PlantRow.superficie_cacao_ha))

/-- Aggregated plantation yield estimate for one producer code. -/
def aggEstimation (plants : List PlantRow) (code : String) : Option ℚ :=
  if (plantGroup plants code).isEmpty then none
  else some (sumOpt ((plantGroup plants code).map PlantRow.estimation_kg))

/-- Relative-deviation column of script 5: (aggregated − declared) /
declared × 100, with a declared value of zero replaced by NaN before the
division, so the column is absent whenever the declared value is zero or
absent or the aggregate is absent. -/
def ecartPct (agg : Option ℚ) (decl : Option ℚ) : Option ℚ :=
  match agg, decl with
  | some c, some d => if d = 0 then none else some ((c - d) / d * 100)
  | _, _ => none

/-- Surface-deviation flag of script 5 for one producer row: the row lands
in anom_surface exactly when its deviation column holds a number of
absolute value above 10 (a NaN compares false). -/
def flagSurface (plants : List PlantRow) (p : ProdRow) : Bool :=
  match ecartPct (aggSurface plants p.code_producteur)
      p.superficie_totale_cacao_ha with
  | some e => decide (10 < |e|)
  | none => false

/-- Yield-deviation flag of script 5 for one producer row (anom_estim). -/
def flagEstimation (plants : List PlantRow) (p : ProdRow) : Bool :=
  match ecartPct (aggEstimation plants p.code_producteur)
      p.estimation_totale_kg with
  | some e => decide (10 < |e|)
  | none => false

/-- One row of coop_plantations_clean.csv as selected by script 8 after
the to_float coercion of the declared surface. -/
structure Plant8Row where
  code_plantation : String
  code_producteur : String
  cooperative : Option String
  superficie_cacao_ha : Option ℚ
  deriving DecidableEq

/-- One feature of parcelles_clean.geojson as selected by script 8 after
the to_float coercion of the computed surface. -/
structure Geo8Row where
  Farms_ID : String
  surface_calculee_ha : Option ℚ
  deriving DecidableEq

/-- Inner merge of script 8 on code_plantation = Farms_ID: pandas keeps the
left row order and pairs each plantation row with every parcel row sharing
its key. -/
def mergeSurfaces (dfp : List Plant8Row) (gdf : List Geo8Row) :
    List (Plant8Row × Geo8Row) :=
  dfp.flatMap fun p =>
    (gdf.filter (fun g => g.Farms_ID == p.code_plantation)).map fun g => (p, g)

/-- Relative-deviation column of script 8 for one joined row: (computed −
declared) / declared × 100, the declared value zero being replaced by NaN
before the division. -/
def ecartSurfacePct8 (m : Plant8Row × Geo8Row) : Option ℚ :=
  match m.2.surface_calculee_ha, m.1.superficie_cacao_ha with
  | some c, some d => if d = 0 then none else some ((c - d) / d * 100)
  | _, _ => none

/-- Anomaly flag of script 8 for one joined row: true exactly when the
deviation column holds a number of absolute value above 10. -/
def anomalieSurface (m : Plant8Row × Geo8Row) : Bool :=
  match ecartSurfacePct8 m with
  | some e => decide (10 < |e|)
  | none => false

/-- One row of a table analysed by the duplicate detector of script 4: its
identifier-column value plus the rest of the row (two rows sharing an
identifier may differ elsewhere). -/
structure Row4 where
  idVal : String
  payload : String
  deriving DecidableEq

/-- One duplicate anomaly record of script 4: identifiant,
colonne_concernee, type_anomalie and valeur, the source putting the
duplicated identifier in both identifiant and valeur. -/
structure AnomalieDup where
  identifiant : String
  colonne_concernee : String
  type_anomalie : String
  valeur : String
  deriving DecidableEq

/-- Embedding of detect_duplicates of script 4: pandas duplicated with
keep=False marks every row whose identifier occurs at least twice, and one
anomaly record is produced per marked row. -/
def detect_duplicates (df : List Row4) (id_col nm : String) :
    List AnomalieDup :=
  (df.filter (fun r => 2 ≤ df.countP (fun s => s.idVal == r.idVal))).map
    (fun r => ⟨r.idVal, id_col, "Doublon sur " ++ nm, r.idVal⟩)

/-- One numeric column of a table analysed by the outlier detector of
script 4, after the to_numeric coercion: uncoercible entries and NaN are
absent values. -/
structure NumCol where
  colName : String
  values : List (Option ℚ)
  deriving DecidableEq

/-- Column lookup of script 4: none when the configured column is missing
from the table. -/
def colValues (df : List NumCol) (c : String) : Option (List (Option ℚ)) :=
  (df.find? (fun col => col.colName == c)).map NumCol.values

/-- One range anomaly record of script 4; the message "col hors bornes
[min; max]" carrying the violated bounds is modelled by the two bound
fields. -/
structure AnomalieVal where
  identifiant : String
  colonne_concernee : String
  borne_min : ℚ
  borne_max : ℚ
  valeur : ℚ
  deriving DecidableEq

/-- Range check of script 4 for one present column: one anomaly per row
whose value is a number strictly outside the closed interval. -/
def outlierRecords (idVals : List String) (c : String) (mn mx : ℚ)
    (vals : List (Option ℚ)) : List AnomalieVal :=
  (idVals.zip vals).filterMap fun iv =>
    match iv.2 with
    | some v => if v < mn ∨ mx < v then some ⟨iv.1, c, mn, mx, v⟩ else none
    | none => none

/-- Embedding of detect_outliers of script 4: the checks run in the order
of the configured threshold list, and a configured column missing from the
table contributes nothing (a warning is logged and the loop continues). -/
def detect_outliers (df : List NumCol) (seuils : List (String × ℚ × ℚ))
    (idVals : List String) : List AnomalieVal :=
  seuils.flatMap fun s =>
    match colValues df s.1 with
    | none => []
    | some vals => outlierRecords idVals s.1 s.2.1 s.2.2 vals

/-- One row of coop_plantations_clean.csv as aggregated by script 9. -/
structure Plant9Row where
  code_producteur : String
  code_plantation : Option String
  superficie_cacao_ha : Option ℚ
  deriving DecidableEq

/-- One row of surfaces_compare_parcelle.csv (the joined table of script 8)
as aggregated by script 9. -/
structure Compare9Row where
  code_producteur : String
  code_plantation : Option String
  surface_calculee_ha : Option ℚ
  deriving DecidableEq

/-- One row of anomalies_surfaces_parcelle.csv as aggregated by script 9. -/
structure Anom9Row where
  code_producteur : String
  code_plantation : Option String
  deriving DecidableEq

/-- Keep-first deduplication behind pandas duplicated(keep="first") and
drop_duplicates(keep="first") on a key: a row survives when its key has
not been seen on an earlier row. -/
def keepFirstByAux [DecidableEq γ] (f : δ → γ) : List δ → List γ → List δ
  | [], _ => []
  | x :: xs, seen =>
      if f x ∈ seen then keepFirstByAux f xs seen
      else x :: keepFirstByAux f xs (f x :: seen)

/-- Keep-first deduplication starting from no seen keys. -/
def keepFirstBy [DecidableEq γ] (f : δ → γ) (l : List δ) : List δ :=
  keepFirstByAux f l []

/-- Producer-level rollup record of script 9
(synthese_coherence_producteurs). -/
structure Rollup9Row where
  code_producteur : String
  nb_plantations_total : ℚ
  nb_jointes : ℚ
  nb_anomalies : ℚ
  superficie_decl_totale : ℚ
  superficie_calc_totale : ℚ
  taux_couverture_geo : ℚ
  taux_anomalies : ℚ
  ecart_surface_total_ha : ℚ
  deriving DecidableEq

/-- Replacement step of safe_divide of script 9: a denominator of zero
becomes NA before the division. -/
def replaceZero (b : Option ℚ) : Option ℚ :=
  match b with
  | some y => if y = 0 then none else some y
  | none => none

/-- Division and scaling step of safe_divide of script 9 under NaN
propagation: (a / b) × 100, absent when either operand is absent. -/
def optDivMul (a b : Option ℚ) : Option ℚ :=
  match a, b with
  | some x, some y => some (x / y * 100)
  | _, _ => none

/-- Embedding of safe_divide of script 9 as applied to the fillna(0)
count columns: a zero denominator is replaced by NA before dividing,
infinities (unreachable after that replacement) are replaced by NA, NA
becomes 0, and the result is rounded to two decimals. -/
def safe_divide (a b : Option ℚ) : ℚ :=
  pyRound2 ((optDivMul a (replaceZero b)).getD 0)

/-- Count aggregated by script 9 for one producer code over one table: the
pandas count of non-null code_plantation entries in the group, which is
also 0 when the left merge found no group. -/
def nbTotal9 (dfp : List Plant9Row) (code : String) : ℚ :=
  (((dfp.filter (fun r => r.code_producteur == code)).countP
    (fun r => r.code_plantation.isSome) : ℕ) : ℚ)

/-- Count of joined rows of script 9 for one producer code. -/
def nbJointes9 (dfc : List Compare9Row) (code : String) : ℚ :=
  (((dfc.filter (fun r => r.code_producteur == code)).countP
    (fun r => r.code_plantation.isSome) : ℕ) : ℚ)

/-- Count of surface-anomaly rows of script 9 for one producer code. -/
def nbAnomalies9 (dfa : List Anom9Row) (code : String) : ℚ :=
  (((dfa.filter (fun r => r.code_producteur == code)).countP
    (fun r => r.code_plantation.isSome) : ℕ) : ℚ)

/-- Declared-surface total of script 9 for one producer code. -/
def declTotal9 (dfp : List Plant9Row) (code : String) : ℚ :=
  sumOpt ((dfp.filter (fun r => r.code_producteur == code)).map
    Plant9Row.superficie_cacao_ha)

/-- Computed-surface total of script 9 for one producer code. -/
def calcTotal9 (dfc : List Compare9Row) (code : String) : ℚ :=
  sumOpt ((dfc.filter (fun r => r.code_producteur == code)).map
    Compare9Row.surface_calculee_ha)

/-- One producer-level rollup row of script 9. -/
def rollupRow (dfp : List Plant9Row) (dfc : List Compare9Row)
    (dfa : List Anom9Row) (code : String) : Rollup9Row where
  code_producteur := code
  nb_plantations_total := nbTotal9 dfp code
  nb_jointes := nbJointes9 dfc code
  nb_anomalies := nbAnomalies9 dfa code
  superficie_decl_totale := declTotal9 dfp code
  superficie_calc_totale := calcTotal9 dfc code
  taux_couverture_geo :=
    safe_divide (some (nbJointes9 dfc code)) (some (nbTotal9 dfp code))
  taux_anomalies :=
    safe_divide (some (nbAnomalies9 dfa code)) (some (nbJointes9 dfc code))
  ecart_surface_total_ha :=
    pyRound2 (declTotal9 dfp code - calcTotal9 dfc code)

/-- Producer-level rollup of script 9: one row per distinct producer code
of the plantation table. -/
def rollup (dfp : List Plant9Row) (dfc : List Compare9Row)
    (dfa : List Anom9Row) : List Rollup9Row :=
  (keepFirstBy id (dfp.map (fun r => r.code_producteur))).map
    (rollupRow dfp dfc dfa)

/-- Embedding of determine_utm_epsg of script 7: the UTM EPSG code derived
from the mean centroid longitude/latitude of the dataset, the input being
absent when the GeoDataFrame is empty or a geometric exception occurs (the
try/except of the source), in which case the fixed fallback 3857 is
returned. -/
def determine_utm_epsg (centroidMean : Option (ℚ × ℚ)) : ℤ :=
  match centroidMean with
  | none => 3857
  | some (lon, lat) =>
      let zone := pyInt ((lon + 180) / 6) + 1
      let zone2 := if zone < 1 then 1 else zone
      (if 0 ≤ lat then 32600 else 32700) + zone2

/-- EPSG code under which script 7 computes surface_calculee_ha: the
selected UTM code when the to_crs reprojection succeeds, the fixed
fallback EPSG 3857 when it raises. -/
def surfaceEpsg (centroidMean : Option (ℚ × ℚ))
    (reprojectionOk : ℤ → Bool) : ℤ :=
  if reprojectionOk (determine_utm_epsg centroidMean) then
    determine_utm_epsg centroidMean
  else 3857

/-- One feature of the raw parcel GeoJSON as seen by the deduplication
steps 3 and 4 of script 7: its Farms_ID attribute and the exact bytes
(wkb_hex) of its geometry, absent for a null geometry. -/
structure GeoRow7 where
  farmsId : String
  geomWkb : Option String
  deriving DecidableEq

/-- Embedding of cleaning steps 3 and 4 of script 7: drop_duplicates on
Farms_ID keeping the first row (when the column is present), then removal
of duplicated geometry byte strings keeping the first remaining row; a
null geometry hashes to NaN, and pandas duplicated treats NaN keys as
duplicates of each other. -/
def cleanDedup (hasIdCol : Bool) (rows : List GeoRow7) : List GeoRow7 :=
  keepFirstBy GeoRow7.geomWkb
    (if hasIdCol then keepFirstBy GeoRow7.farmsId rows else rows)

theorem pairRecord_eq (api : GeomApi α) (p q : Parcel ι α) :
    pairRecord api p q =
      if qualifies api p q then
        some ⟨p.farmsId, q.farmsId,
          pyRound2 (overlapRatio api p.geom q.geom * 100)⟩
      else none := by
  simp only [pairRecord, qualifies, overlapRatio]
  cases h1 : api.intersects p.geom q.geom
  · simp [h1]
  · cases h2 : api.isEmpty (api.intersection p.geom q.geom)
    · by_cases h3 : 15/100 <
        max (api.area (api.intersection p.geom q.geom) / api.area p.geom)
          (api.area (api.intersection p.geom q.geom) / api.area q.geom)
      · simp [h1, h2, h3]
      · simp [h1, h2, h3]
    · simp [h1, h2]

theorem mem_of_mem_pairsUpper {l : List β} {a b : β}
    (h : (a, b) ∈ pairsUpper l) : a ∈ l ∧ b ∈ l := by
  induction l with
  | nil => simp [pairsUpper] at h
  | cons x xs ih =>
    simp only [pairsUpper, List.mem_append, List.mem_map] at h
    rcases h with ⟨y, hy, heq⟩ | h
    · injection heq with e1 e2
      subst e1; subst e2
      exact ⟨List.mem_cons_self _ _, List.mem_cons_of_mem _ hy⟩
    · exact ⟨List.mem_cons_of_mem _ (ih h).1, List.mem_cons_of_mem _ (ih h).2⟩

theorem pairsUpper_not_diag {l : List β} (hN : l.Nodup) {a : β} :
    (a, a) ∉ pairsUpper l := by
  induction l with
  | nil => simp [pairsUpper]
  | cons x xs ih =>
    obtain ⟨hx, hxs⟩ := List.nodup_cons.mp hN
    simp only [pairsUpper, List.mem_append, List.mem_map]
    rintro (⟨y, hy, heq⟩ | h)
    · injection heq with e1 e2
      subst e1; subst e2
      exact hx hy
    · exact ih hxs h

theorem pairsUpper_asymm {l : List β} (hN : l.Nodup) {a b : β}
    (h1 : (a, b) ∈ pairsUpper l) (h2 : (b, a) ∈ pairsUpper l) : a = b := by
  induction l with
  | nil => simp [pairsUpper] at h1
  | cons x xs ih =>
    obtain ⟨hx, hxs⟩ := List.nodup_cons.mp hN
    simp only [pairsUpper, List.mem_append, List.mem_map] at h1 h2
    rcases h1 with ⟨y, hy, heq⟩ | h1
    · obtain ⟨e1, e2⟩ := Prod.mk.inj heq
      rcases h2 with ⟨z, hz, heq2⟩ | h2
      · obtain ⟨e3, e4⟩ := Prod.mk.inj heq2
        exact e1.symm.trans e3
      · exact absurd (mem_of_mem_pairsUpper h2).2 (e1 ▸ hx)
    · rcases h2 with ⟨z, hz, heq2⟩ | h2
      · obtain ⟨e3, e4⟩ := Prod.mk.inj heq2
        exact absurd (mem_of_mem_pairsUpper h1).2 (e3 ▸ hx)
      · exact ih hxs h1 h2

theorem countP_single_of_nodup [DecidableEq β] {l : List β} {a : β}
    (hN : l.Nodup) (ha : a ∈ l) :
    l.countP (fun y => decide (y = a)) = 1 := by
  have h := List.count_eq_one_of_mem hN ha
  rw [List.count_eq_countP] at h
  rw [List.countP_congr (q := fun y => y == a)]
  · exact h
  · intro y _
    simp [beq_iff_eq]

theorem countP_pairsUpper_pair [DecidableEq β] {l : List β} {p q : β}
    (hN : l.Nodup) (hp : p ∈ l) (hq : q ∈ l) (hne : p ≠ q) :
    (pairsUpper l).countP
      (fun pq => decide (pq = (p, q) ∨ pq = (q, p))) = 1 := by
  induction l with
  | nil => cases hp
  | cons x xs ih =>
    obtain ⟨hx, hxs⟩ := List.nodup_cons.mp hN
    simp only [pairsUpper, List.countP_append, List.countP_map]
    rcases List.mem_cons.mp hp with rfl | hp'
    · have hq' : q ∈ xs := by
        rcases List.mem_cons.mp hq with rfl | h
        · exact absurd rfl hne
        · exact h
      have hmap : xs.countP
          ((fun pq => decide (pq = (p, q) ∨ pq = (q, p))) ∘ fun y => (p, y))
          = 1 := by
        rw [List.countP_congr (q := fun y => decide (y = q))]
        · exact countP_single_of_nodup hxs hq'
        · intro y hy
          simp only [Function.comp_apply, decide_eq_true_eq, Prod.mk.injEq,
            true_and]
          constructor
          · rintro (h | ⟨h1, -⟩)
            · exact h
            · exact absurd h1 hne
          · exact Or.inl
      have hrest : (pairsUpper xs).countP
          (fun pq => decide (pq = (p, q) ∨ pq = (q, p))) = 0 :=
        List.countP_eq_zero.mpr fun pq hpq h => by
          simp only [decide_eq_true_eq] at h
          rcases h with rfl | rfl
          · exact hx (mem_of_mem_pairsUpper hpq).1
          · exact hx (mem_of_mem_pairsUpper hpq).2
      omega
    · rcases List.mem_cons.mp hq with rfl | hq'
      · have hmap : xs.countP
            ((fun pq => decide (pq = (p, q) ∨ pq = (q, p))) ∘ fun y => (q, y))
            = 1 := by
          rw [List.countP_congr (q := fun y => decide (y = p))]
          · exact countP_single_of_nodup hxs hp'
          · intro y hy
            simp only [Function.comp_apply, decide_eq_true_eq, Prod.mk.injEq,
              true_and]
            constructor
            · rintro (⟨h1, -⟩ | h)
              · exact absurd h1.symm hne
              · exact h
            · intro h
              exact Or.inr h
        have hrest : (pairsUpper xs).countP
            (fun pq => decide (pq = (p, q) ∨ pq = (q, p))) = 0 :=
          List.countP_eq_zero.mpr fun pq hpq h => by
            simp only [decide_eq_true_eq] at h
            rcases h with rfl | rfl
            · exact hx (mem_of_mem_pairsUpper hpq).2
            · exact hx (mem_of_mem_pairsUpper hpq).1
        omega
      · have hmap : xs.countP
            ((fun pq => decide (pq = (p, q) ∨ pq = (q, p))) ∘ fun y => (x, y))
            = 0 :=
          List.countP_eq_zero.mpr fun y hy h => by
            simp only [Function.comp_apply, decide_eq_true_eq,
              Prod.mk.injEq] at h
            rcases h with ⟨h1, -⟩ | ⟨h1, -⟩
            · subst h1; exact hx hp'
            · subst h1; exact hx hq'
        have := ih hxs hp' hq'
        omega

theorem mem_detectOverlaps {api : GeomApi α} {l : List (Parcel ι α)}
    {r : OverlapRec ι} :
    r ∈ detectOverlaps api l ↔
      ∃ u v : Parcel ι α, (u, v) ∈ pairsUpper l ∧ qualifies api u v = true ∧
        r = ⟨u.farmsId, v.farmsId,
          pyRound2 (overlapRatio api u.geom v.geom * 100)⟩ := by
  simp only [detectOverlaps, List.mem_filterMap]
  constructor
  · rintro ⟨⟨u, v⟩, hmem, hr⟩
    rw [pairRecord_eq] at hr
    by_cases hq : qualifies api u v
    · rw [if_pos hq] at hr
      exact ⟨u, v, hmem, hq, (Option.some_inj.mp hr).symm⟩
    · rw [if_neg hq] at hr; cases hr
  · rintro ⟨u, v, hmem, hq, rfl⟩
    exact ⟨(u, v), hmem, by rw [pairRecord_eq, if_pos hq]⟩

theorem overlapRatio_comm (api : GeomApi α)
    (hInter : ∀ g1 g2, api.intersection g1 g2 = api.intersection g2 g1)
    (g1 g2 : α) : overlapRatio api g1 g2 = overlapRatio api g2 g1 := by
  rw [overlapRatio, overlapRatio, hInter g1 g2, max_comm]

theorem qualifies_comm (api : GeomApi α)
    (hInt : ∀ g1 g2, api.intersects g1 g2 = api.intersects g2 g1)
    (hInter : ∀ g1 g2, api.intersection g1 g2 = api.intersection g2 g1)
    (p q : Parcel ι α) : qualifies api p q = qualifies api q p := by
  rw [qualifies, qualifies, hInt p.geom q.geom, hInter p.geom q.geom,
    overlapRatio_comm api hInter p.geom q.geom]

theorem detect_countP_mentions [DecidableEq ι] [DecidableEq α]
    (api : GeomApi α) (l : List (Parcel ι α))
    (hids : (l.map Parcel.farmsId).Nodup)
    (hInt : ∀ g1 g2, api.intersects g1 g2 = api.intersects g2 g1)
    (hInter : ∀ g1 g2, api.intersection g1 g2 = api.intersection g2 g1)
    {p q : Parcel ι α} (hp : p ∈ l) (hq : q ∈ l) (hne : p ≠ q) :
    (detectOverlaps api l).countP (mentionsPair p.farmsId q.farmsId)
      = if qualifies api p q then 1 else 0 := by
  have hN : l.Nodup := hids.of_map
  have hinj := List.inj_on_of_nodup_map hids
  rw [detectOverlaps, List.countP_filterMap]
  have hcong : ∀ pq ∈ pairsUpper l,
      (((pairRecord api pq.1 pq.2).map
          (mentionsPair p.farmsId q.farmsId)).getD false)
        = (qualifies api p q && decide (pq = (p, q) ∨ pq = (q, p))) := by
    intro pq hpq
    have hJ : (pq.1, pq.2) ∈ pairsUpper l := by rw [Prod.mk.eta]; exact hpq
    obtain ⟨hu, hv⟩ := mem_of_mem_pairsUpper hJ
    rw [pairRecord_eq]
    by_cases h1 : pq = (p, q)
    · subst h1
      by_cases hqq : qualifies api p q <;>
        simp [hqq, mentionsPair]
    · by_cases h2 : pq = (q, p)
      · subst h2
        by_cases hqq : qualifies api p q <;>
          simp [hqq, mentionsPair, qualifies_comm api hInt hInter q p]
      · have hRHS : decide (pq = (p, q) ∨ pq = (q, p)) = false := by
          simp [h1, h2]
        rw [hRHS, Bool.and_false]
        by_cases h12 : qualifies api pq.1 pq.2
        · rw [if_pos h12]
          simp only [Option.map_some', Option.getD_some, mentionsPair]
          rw [decide_eq_false_iff_not]
          rintro (⟨ha, hb⟩ | ⟨ha, hb⟩)
          · exact h1 (by
              rw [← Prod.mk.eta (p := pq), hinj hu hp ha, hinj hv hq hb])
          · exact h2 (by
              rw [← Prod.mk.eta (p := pq), hinj hu hq ha, hinj hv hp hb])
        · rw [if_neg h12]; simp
  rw [List.countP_congr fun pq hpq => by rw [hcong pq hpq]]
  by_cases hqual : qualifies api p q
  · rw [if_pos hqual]
    simp only [hqual, Bool.true_and]
    exact countP_pairsUpper_pair hN hp hq hne
  · rw [if_neg hqual]
    have hf : qualifies api p q = false := by
      exact Bool.not_eq_true _ ▸ eq_false_of_ne_true hqual
    simp [hf]

theorem detect_value_mentions [DecidableEq ι]
    (api : GeomApi α) (l : List (Parcel ι α))
    (hids : (l.map Parcel.farmsId).Nodup)
    (hInter : ∀ g1 g2, api.intersection g1 g2 = api.intersection g2 g1)
    {p q : Parcel ι α} (hp : p ∈ l) (hq : q ∈ l) :
    ∀ r ∈ detectOverlaps api l, mentionsPair p.farmsId q.farmsId r = true →
      r.pourcentage_chevauchement
        = pyRound2 (overlapRatio api p.geom q.geom * 100) := by
  have hinj := List.inj_on_of_nodup_map hids
  intro r hr hm
  obtain ⟨u, v, hmem, hq', rfl⟩ := mem_detectOverlaps.mp hr
  obtain ⟨hu, hv⟩ := mem_of_mem_pairsUpper hmem
  simp only [mentionsPair, decide_eq_true_eq] at hm
  rcases hm with ⟨ha, hb⟩ | ⟨ha, hb⟩
  · show pyRound2 (overlapRatio api u.geom v.geom * 100) = _
    rw [hinj hu hp ha, hinj hv hq hb]
  · show pyRound2 (overlapRatio api u.geom v.geom * 100) = _
    rw [hinj hu hq ha, hinj hv hp hb,
      overlapRatio_comm api hInter q.geom p.geom]

theorem rectInter_comm (a b : Rect) : Rect.inter a b = Rect.inter b a := by
  simp only [Rect.inter, Rect.mk.injEq]
  exact ⟨max_comm _ _, max_comm _ _, min_comm _ _, min_comm _ _⟩

theorem rectApi_intersects_comm : ∀ g1 g2 : Rect,
    rectApi.intersects g1 g2 = rectApi.intersects g2 g1 := by
  intro g1 g2
  show (!rectIsEmpty (Rect.inter g1 g2)) = (!rectIsEmpty (Rect.inter g2 g1))
  rw [rectInter_comm]

theorem rectApi_intersection_comm : ∀ g1 g2 : Rect,
    rectApi.intersection g1 g2 = rectApi.intersection g2 g1 := by
  intro g1 g2
  show Rect.inter g1 g2 = Rect.inter g2 g1
  exact rectInter_comm g1 g2

theorem detect_pA_pB : detectOverlaps rectApi [pA, pB] = [⟨1, 2, 40⟩] := by
  norm_num [detectOverlaps, pairsUpper, pairRecord, List.filterMap_cons,
    rectApi, Rect.inter, rectIsEmpty, Rect.area, pyRound2, pyRoundInt,
    max_def, min_def, pA, pB]

theorem detect_pB_pA : detectOverlaps rectApi [pB, pA] = [⟨2, 1, 40⟩] := by
  norm_num [detectOverlaps, pairsUpper, pairRecord, List.filterMap_cons,
    rectApi, Rect.inter, rectIsEmpty, Rect.area, pyRound2, pyRoundInt,
    max_def, min_def, pA, pB]

theorem pApB_ids_nodup : ([pA, pB].map Parcel.farmsId).Nodup := by
  simp [pA, pB]

theorem pA_ne_pB : pA ≠ pB := by
  intro h
  have h1 := congrArg Parcel.farmsId h
  simp [pA, pB] at h1

theorem qualifies_pA_pB : qualifies rectApi pA pB = true := by
  norm_num [qualifies, overlapRatio, rectApi, Rect.inter, rectIsEmpty,
    Rect.area, pA, pB, max_def, min_def]

theorem overlapRatio_pA_pB : overlapRatio rectApi pA.geom pB.geom = 2/5 := by
  norm_num [overlapRatio, rectApi, Rect.inter, Rect.area, pA, pB,
    max_def, min_def]

theorem pyRound2_two_fifths : pyRound2 (2/5) = 2/5 := by
  norm_num [pyRound2, pyRoundInt]

/-- C1 (amended): on a parcel collection with pairwise distinct Farms_ID
values and symmetric geometric primitives, the overlap detector of
script 10 emits exactly one OverlapRecord per unordered pair of distinct
parcels whose geometries intersect non-emptily with overlap ratio above
0.15 — and none for a non-qualifying pair — and the emitted record carries
the ratio multiplied by 100 (a percentage) rounded to two decimal places,
rather than the ratio itself rounded to two decimal places. -/
theorem C1_overlap_one_record_per_pair [DecidableEq ι] [DecidableEq α]
    (api : GeomApi α) (l : List (Parcel ι α))
    (hids : (l.map Parcel.farmsId).Nodup)
    (hInt : ∀ g1 g2, api.intersects g1 g2 = api.intersects g2 g1)
    (hInter : ∀ g1 g2, api.intersection g1 g2 = api.intersection g2 g1)
    {p q : Parcel ι α} (hp : p ∈ l) (hq : q ∈ l) (hne : p ≠ q) :
    (detectOverlaps api l).countP (mentionsPair p.farmsId q.farmsId)
        = (if qualifies api p q then 1 else 0)
      ∧ ∀ r ∈ detectOverlaps api l,
          mentionsPair p.farmsId q.farmsId r = true →
          r.pourcentage_chevauchement
            = pyRound2 (overlapRatio api p.geom q.geom * 100) :=
  ⟨detect_countP_mentions api l hids hInt hInter hp hq hne,
   detect_value_mentions api l hids hInter hp hq⟩

/-- C1 as stated fails on the code at a concrete input: parcels of areas
100 and 50 intersecting in 20 yield ratio 0.40 and are emitted, but the
record carries 40.0 — round(ratio * 100, 2) — whereas the ratio rounded to
two decimal places is 0.40. -/
theorem C1_counterexample :
    detectOverlaps rectApi [pA, pB] = [⟨1, 2, 40⟩]
      ∧ rectApi.area pA.geom = 100
      ∧ rectApi.area pB.geom = 50
      ∧ rectApi.area (rectApi.intersection pA.geom pB.geom) = 20
      ∧ overlapRatio rectApi pA.geom pB.geom = 2/5
      ∧ pyRound2 (overlapRatio rectApi pA.geom pB.geom) = 2/5
      ∧ (40 : ℚ) ≠ 2/5 := by
  refine ⟨detect_pA_pB, ?_, ?_, ?_, overlapRatio_pA_pB, ?_, by norm_num⟩
  · norm_num [rectApi, Rect.area, pA, max_def]
  · norm_num [rectApi, Rect.area, pB, max_def]
  · norm_num [rectApi, Rect.area, Rect.inter, pA, pB, max_def, min_def]
  · rw [overlapRatio_pA_pB]; exact pyRound2_two_fifths

/-- Witness for C1 at a concrete input: the unordered pair pA, pB is
mentioned by exactly one emitted record. -/
theorem C1_witness :
    (detectOverlaps rectApi [pA, pB]).countP (mentionsPair 1 2) = 1 := by
  have h := (C1_overlap_one_record_per_pair rectApi [pA, pB] pApB_ids_nodup
    rectApi_intersects_comm rectApi_intersection_comm
    (p := pA) (q := pB) (by simp) (by simp) pA_ne_pB).1
  rw [qualifies_pA_pB] at h
  simpa using h

/-- C3 as stated fails on the code at a concrete input: the two-parcel
collections [pA, pB] and [pB, pA] are permutations of each other, yet the
detector emits [(1, 2, 40.0)] for the first and [(2, 1, 40.0)] for the
second — the record sets differ and the second record has id_1 greater
than id_2, so the field order follows input order, not an id ordering. -/
theorem C3_counterexample :
    ([pA, pB] : List (Parcel ℕ Rect)).Perm [pB, pA]
      ∧ detectOverlaps rectApi [pA, pB] = [⟨1, 2, 40⟩]
      ∧ detectOverlaps rectApi [pB, pA] = [⟨2, 1, 40⟩]
      ∧ detectOverlaps rectApi [pA, pB] ≠ detectOverlaps rectApi [pB, pA]
      ∧ ¬((⟨2, 1, 40⟩ : OverlapRec ℕ).id_1
            < (⟨2, 1, 40⟩ : OverlapRec ℕ).id_2) := by
  refine ⟨List.Perm.swap pB pA [], detect_pA_pB, detect_pB_pA, ?_, by decide⟩
  rw [detect_pA_pB, detect_pB_pA]
  simp [OverlapRec.mk.injEq]

/-- C3 (amended): for two parcel collections that are permutations of each
other (with pairwise distinct identifiers and symmetric primitives) the
detector emits, for every unordered pair of distinct parcels, the same
number of records carrying the same rounded percentage; the id_1/id_2
field order inside a record follows the input iteration order rather than
a fixed ordering of the identifiers. -/
theorem C3_perm_invariant_up_to_swap [DecidableEq ι] [DecidableEq α]
    (api : GeomApi α) (l₁ l₂ : List (Parcel ι α)) (hperm : l₁.Perm l₂)
    (hids : (l₁.map Parcel.farmsId).Nodup)
    (hInt : ∀ g1 g2, api.intersects g1 g2 = api.intersects g2 g1)
    (hInter : ∀ g1 g2, api.intersection g1 g2 = api.intersection g2 g1)
    {p q : Parcel ι α} (hp : p ∈ l₁) (hq : q ∈ l₁) (hne : p ≠ q) :
    (detectOverlaps api l₁).countP (mentionsPair p.farmsId q.farmsId)
        = (detectOverlaps api l₂).countP (mentionsPair p.farmsId q.farmsId)
      ∧ (∀ r ∈ detectOverlaps api l₁,
          mentionsPair p.farmsId q.farmsId r = true →
          r.pourcentage_chevauchement
            = pyRound2 (overlapRatio api p.geom q.geom * 100))
      ∧ (∀ r ∈ detectOverlaps api l₂,
          mentionsPair p.farmsId q.farmsId r = true →
          r.pourcentage_chevauchement
            = pyRound2 (overlapRatio api p.geom q.geom * 100)) := by
  have hids₂ : (l₂.map Parcel.farmsId).Nodup :=
    ((hperm.map Parcel.farmsId).nodup_iff).mp hids
  have hp₂ : p ∈ l₂ := hperm.subset hp
  have hq₂ : q ∈ l₂ := hperm.subset hq
  refine ⟨?_, detect_value_mentions api l₁ hids hInter hp hq,
    detect_value_mentions api l₂ hids₂ hInter hp₂ hq₂⟩
  rw [detect_countP_mentions api l₁ hids hInt hInter hp hq hne,
    detect_countP_mentions api l₂ hids₂ hInt hInter hp₂ hq₂ hne]

/-- Witness for C3 at a concrete input: both iteration orders of the two
witness parcels mention the unordered pair the same number of times. -/
theorem C3_witness :
    (detectOverlaps rectApi [pA, pB]).countP (mentionsPair 1 2)
      = (detectOverlaps rectApi [pB, pA]).countP (mentionsPair 1 2) := by
  have h := (C3_perm_invariant_up_to_swap rectApi [pA, pB] [pB, pA]
    (List.Perm.swap pB pA []) pApB_ids_nodup rectApi_intersects_comm
    rectApi_intersection_comm (p := pA) (q := pB)
    (by simp) (by simp) pA_ne_pB).1
  simpa using h

/-- C8: on a parcel collection with pairwise distinct identifiers the
overlap output never contains records for both orders of the same
unordered pair (no record even pairs an identifier with itself), and the
overlap ratio is invariant under swapping the two parcels. -/
theorem C8_no_mirrored_pair [DecidableEq ι]
    (api : GeomApi α) (l : List (Parcel ι α))
    (hids : (l.map Parcel.farmsId).Nodup)
    (hInter : ∀ g1 g2, api.intersection g1 g2 = api.intersection g2 g1) :
    (∀ r ∈ detectOverlaps api l, r.id_1 ≠ r.id_2)
      ∧ (∀ r ∈ detectOverlaps api l, ¬ ∃ r' ∈ detectOverlaps api l,
          r'.id_1 = r.id_2 ∧ r'.id_2 = r.id_1)
      ∧ ∀ g1 g2, overlapRatio api g1 g2 = overlapRatio api g2 g1 := by
  have hN : l.Nodup := hids.of_map
  have hinj := List.inj_on_of_nodup_map hids
  have h1 : ∀ r ∈ detectOverlaps api l, r.id_1 ≠ r.id_2 := by
    intro r hr
    obtain ⟨u, v, hmem, -, rfl⟩ := mem_detectOverlaps.mp hr
    obtain ⟨hu, hv⟩ := mem_of_mem_pairsUpper hmem
    intro h
    have huv : u = v := hinj hu hv h
    subst huv
    exact pairsUpper_not_diag hN hmem
  refine ⟨h1, ?_, overlapRatio_comm api hInter⟩
  intro r hr h
  obtain ⟨r', hr', ha, hb⟩ := h
  have hid := h1 r hr
  obtain ⟨u, v, hmem, -, rfl⟩ := mem_detectOverlaps.mp hr
  obtain ⟨u', v', hmem', -, rfl⟩ := mem_detectOverlaps.mp hr'
  obtain ⟨hu, hv⟩ := mem_of_mem_pairsUpper hmem
  obtain ⟨hu', hv'⟩ := mem_of_mem_pairsUpper hmem'
  have e1 : u' = v := hinj hu' hv ha
  have e2 : v' = u := hinj hv' hu hb
  subst e1; subst e2
  exact hid (congrArg Parcel.farmsId (pairsUpper_asymm hN hmem hmem'))

/-- Witness for C8 at a concrete input: the single record emitted for the
two witness parcels does not pair an identifier with itself. -/
theorem C8_witness :
    ([pA, pB].map Parcel.farmsId).Nodup
      ∧ (⟨1, 2, 40⟩ : OverlapRec ℕ).id_1
          ≠ (⟨1, 2, 40⟩ : OverlapRec ℕ).id_2 :=
  ⟨pApB_ids_nodup,
   (C8_no_mirrored_pair rectApi [pA, pB] pApB_ids_nodup
      rectApi_intersection_comm).1 ⟨1, 2, 40⟩ (by rw [detect_pA_pB]; simp)⟩

theorem ecartPct_none_right (agg : Option ℚ) : ecartPct agg none = none := by
  cases agg <;> rfl

theorem ecartPct_zero_right (agg : Option ℚ) :
    ecartPct agg (some 0) = none := by
  cases agg with
  | none => rfl
  | some c => simp [ecartPct]

theorem ecartPct_none_left (decl : Option ℚ) : ecartPct none decl = none := by
  cases decl <;> rfl

theorem percent_bound_iff (z : ℚ) : 10 < z * 100 ↔ 1/10 < z := by
  constructor <;> intro h <;> linarith

theorem abs_percent_iff (x : ℚ) : 10 < |x * 100| ↔ 1/10 < |x| := by
  rw [abs_mul, abs_of_pos (by norm_num : (0 : ℚ) < 100)]
  exact percent_bound_iff _

/-- C2 as stated fails on the code at a concrete input: a producer
declaring 10 with no plantation rows has summed plantation area 0 and
relative deviation −100 percent, which exceeds the 10 percent threshold,
yet script 5 does not flag it — the left merge leaves its aggregate NaN,
so the comparison is skipped. -/
theorem C2_counterexample :
    flagSurface [] ⟨"P0", some 10, none⟩ = false
      ∧ sumOpt (([] : List PlantRow).map PlantRow.superficie_cacao_ha) = 0
      ∧ 10 < |((0 - 10) / 10 * 100 : ℚ)| := by
  refine ⟨rfl, rfl, by norm_num⟩

/-- C2 (amended): for each producer row whose declared total is a nonzero
number and that owns at least one plantation row, script 5 flags the row
exactly when the relative deviation of the summed plantation values from
the declared total exceeds 10 percent in absolute value; when the declared
total is zero or absent — or the producer owns no plantation row — the
comparison is skipped and the row is not flagged.  The same holds for the
yield estimate. -/
theorem C2_deviation_flag (plants : List PlantRow) (p : ProdRow) :
    (∀ d : ℚ, p.superficie_totale_cacao_ha = some d → d ≠ 0 →
      (plantGroup plants p.code_producteur).isEmpty = false →
      (flagSurface plants p = true ↔
        1/10 < |(sumOpt ((plantGroup plants p.code_producteur).map
            PlantRow.superficie_cacao_ha) - d) / d|))
    ∧ ((p.superficie_totale_cacao_ha = none
          ∨ p.superficie_totale_cacao_ha = some 0) →
        flagSurface plants p = false)
    ∧ ((plantGroup plants p.code_producteur).isEmpty = true →
        flagSurface plants p = false)
    ∧ (∀ d : ℚ, p.estimation_totale_kg = some d → d ≠ 0 →
      (plantGroup plants p.code_producteur).isEmpty = false →
      (flagEstimation plants p = true ↔
        1/10 < |(sumOpt ((plantGroup plants p.code_producteur).map
            PlantRow.estimation_kg) - d) / d|))
    ∧ ((p.estimation_totale_kg = none ∨ p.estimation_totale_kg = some 0) →
        flagEstimation plants p = false) := by
  refine ⟨?_, ?_, ?_, ?_, ?_⟩
  · intro d hd hd0 hne
    rw [flagSurface, aggSurface, hne, if_neg (by simp), hd, ecartPct]
    rw [if_neg hd0]
    simp only [decide_eq_true_eq]
    exact abs_percent_iff _
  · intro h
    rcases h with h | h <;> rw [flagSurface, h]
    · rw [ecartPct_none_right]
    · rw [ecartPct_zero_right]
  · intro h
    rw [flagSurface, aggSurface, h, if_pos rfl, ecartPct_none_left]
  · intro d hd hd0 hne
    rw [flagEstimation, aggEstimation, hne, if_neg (by simp), hd, ecartPct]
    rw [if_neg hd0]
    simp only [decide_eq_true_eq]
    exact abs_percent_iff _
  · intro h
    rcases h with h | h <;> rw [flagEstimation, h]
    · rw [ecartPct_none_right]
    · rw [ecartPct_zero_right]

/-- Witness for C2 at the concrete input of spec Example 1: producer P1
declares 10 hectares, its two plantations declare 4 and 4, the deviation
is −20 percent, and the row is flagged. -/
theorem C2_witness :
    flagSurface [⟨"L1", "P1", some 4, none⟩, ⟨"L2", "P1", some 4, none⟩]
      ⟨"P1", some 10, none⟩ = true := by
  have h := (C2_deviation_flag
    [⟨"L1", "P1", some 4, none⟩, ⟨"L2", "P1", some 4, none⟩]
    ⟨"P1", some 10, none⟩).1 10 rfl (by norm_num) (by rfl)
  rw [h]
  norm_num [plantGroup, sumOpt, List.filter]
  rw [abs_of_pos] <;> norm_num

/-- C4: script 8 inner-joins declared plantation area to computed parcel
area on code_plantation = Farms_ID; a joined row whose declared area is a
nonzero number and whose computed area is a number is flagged exactly when
the relative deviation (computed − declared) / declared exceeds 10 percent
in absolute value, and a row whose declared area is zero or absent is
never flagged. -/
theorem C4_area_reconciliation (dfp : List Plant8Row) (gdf : List Geo8Row) :
    (∀ m ∈ mergeSurfaces dfp gdf,
        m.1.code_plantation = m.2.Farms_ID ∧ m.1 ∈ dfp ∧ m.2 ∈ gdf)
      ∧ (∀ m : Plant8Row × Geo8Row, ∀ d c : ℚ,
          m.1.superficie_cacao_ha = some d → d ≠ 0 →
          m.2.surface_calculee_ha = some c →
          (anomalieSurface m = true ↔ 1/10 < |(c - d) / d|))
      ∧ (∀ m : Plant8Row × Geo8Row,
          (m.1.superficie_cacao_ha = none
            ∨ m.1.superficie_cacao_ha = some 0) →
          anomalieSurface m = false) := by
  refine ⟨?_, ?_, ?_⟩
  · intro m hm
    simp only [mergeSurfaces, List.mem_flatMap, List.mem_map,
      List.mem_filter] at hm
    obtain ⟨p, hp, g, ⟨hg, hkey⟩, rfl⟩ := hm
    exact ⟨(beq_iff_eq.mp hkey).symm, hp, hg⟩
  · intro m d c hd hd0 hc
    rw [anomalieSurface, ecartSurfacePct8, hc, hd]
    simp only [if_neg hd0, decide_eq_true_eq]
    exact abs_percent_iff _
  · intro m h
    rcases h with h | h <;> rw [anomalieSurface, ecartSurfacePct8, h] <;>
      cases m.2.surface_calculee_ha <;> simp

/-- Witness for C4 at the concrete input of spec Example 3: plantation X
declares 5.0 hectares, its matched parcel computes to 5.4 hectares, the
deviation is +8 percent, and the row is not flagged. -/
theorem C4_witness :
    mergeSurfaces [⟨"X", "P1", none, some 5⟩] [⟨"X", some (27/5)⟩]
        = [(⟨"X", "P1", none, some 5⟩, ⟨"X", some (27/5)⟩)]
      ∧ anomalieSurface (⟨"X", "P1", none, some 5⟩, ⟨"X", some (27/5)⟩)
          = false := by
  constructor
  · rfl
  · have h := (C4_area_reconciliation [⟨"X", "P1", none, some 5⟩]
      [⟨"X", some (27/5)⟩]).2.1
      (⟨"X", "P1", none, some 5⟩, ⟨"X", some (27/5)⟩) 5 (27/5) rfl
      (by norm_num) rfl
    cases hb : anomalieSurface (⟨"X", "P1", none, some 5⟩, ⟨"X", some (27/5)⟩)
    · rfl
    · exfalso
      have h2 := h.mp hb
      rw [abs_of_pos (by norm_num : (0 : ℚ) < ((27/5 : ℚ) - 5) / 5)] at h2
      norm_num at h2

/-- C5: the duplicate detector of script 4 returns one duplicate anomaly
record per row whose identifier occurs more than once: the number of
records naming identifier x equals the number of rows carrying x whenever
that number is at least two, and is zero otherwise — when an identifier
appears twice both rows are flagged and neither is dropped — and the total
number of records equals the number of rows whose identifier is
duplicated. -/
theorem C5_duplicates_flag_all_rows (df : List Row4) (id_col nm x : String) :
    (detect_duplicates df id_col nm).countP (fun a => a.identifiant == x)
        = (if 2 ≤ df.countP (fun r => r.idVal == x)
           then df.countP (fun r => r.idVal == x) else 0)
      ∧ (detect_duplicates df id_col nm).length
          = df.countP (fun r => 2 ≤ df.countP (fun s => s.idVal == r.idVal)) := by
  constructor
  · rw [detect_duplicates, List.countP_map, List.countP_filter]
    rw [List.countP_congr (q := fun r =>
      (r.idVal == x) && decide (2 ≤ df.countP (fun s => s.idVal == x)))]
    · by_cases hc : 2 ≤ df.countP (fun r => r.idVal == x)
      · rw [if_pos hc]
        rw [List.countP_congr (q := fun r => r.idVal == x)]
        intro r hr
        simp [hc]
      · rw [if_neg hc]
        rw [List.countP_eq_zero.mpr]
        intro r hr
        simp [hc]
    · intro r hr
      cases hx : (r.idVal == x)
      · simp [Function.comp, hx]
      · have : r.idVal = x := beq_iff_eq.mp hx
        simp [Function.comp, hx, this]
  · rw [detect_duplicates, List.length_map, ← List.countP_eq_length_filter]

/-- C9: when a configured column is missing from the table, the outlier
detector of script 4 skips that column's check after recording a warning —
it never fails — and returns exactly the anomalies it would return were
the missing column not configured at all. -/
theorem C9_missing_column_skipped (df : List NumCol) (idVals : List String)
    (s₁ s₂ : List (String × ℚ × ℚ)) (c : String × ℚ × ℚ)
    (hmiss : colValues df c.1 = none) :
    detect_outliers df (s₁ ++ c :: s₂) idVals
      = detect_outliers df (s₁ ++ s₂) idVals := by
  simp only [detect_outliers, List.flatMap_append, List.flatMap_cons, hmiss]
  simp

/-- Witness for C9 at a concrete input: configuring the absent column zz
ahead of the present column a changes nothing. -/
theorem C9_witness :
    detect_outliers [⟨"a", [some 1, some 9]⟩]
        ([] ++ ("zz", 0, 5) :: [("a", 0, 5)]) ["r1", "r2"]
      = detect_outliers [⟨"a", [some 1, some 9]⟩] ([] ++ [("a", 0, 5)])
          ["r1", "r2"] :=
  C9_missing_column_skipped [⟨"a", [some 1, some 9]⟩] ["r1", "r2"]
    [] [("a", 0, 5)] ("zz", 0, 5) rfl

theorem pyRound2_zero : pyRound2 0 = 0 := by
  norm_num [pyRound2, pyRoundInt]

theorem safe_divide_guard (a b : Option ℚ)
    (h : b = some 0 ∨ b = none ∨ a = none) : safe_divide a b = 0 := by
  rcases h with rfl | rfl | rfl
  · cases a <;> simp [safe_divide, replaceZero, optDivMul, pyRound2_zero]
  · cases a <;> simp [safe_divide, replaceZero, optDivMul, pyRound2_zero]
  · cases b with
    | none => simp [safe_divide, replaceZero, optDivMul, pyRound2_zero]
    | some y =>
      by_cases hy : y = 0 <;>
        simp [safe_divide, replaceZero, optDivMul, hy, pyRound2_zero]

/-- C6: every rate of the producer rollup of script 9 substitutes zero for
a division by zero: a rollup row with zero counted plantations has
coverage rate 0, a row with zero joined plantations has anomaly rate 0,
and safe_divide is total — it returns the plain rational 0 whenever the
denominator is zero or either operand is missing, so no infinity or NaN
reaches the output. -/
theorem C6_zero_division_guard (dfp : List Plant9Row)
    (dfc : List Compare9Row) (dfa : List Anom9Row) :
    (∀ row ∈ rollup dfp dfc dfa,
        (row.nb_plantations_total = 0 → row.taux_couverture_geo = 0)
      ∧ (row.nb_jointes = 0 → row.taux_anomalies = 0))
    ∧ (∀ a b : Option ℚ, (b = some 0 ∨ b = none ∨ a = none) →
        safe_divide a b = 0) := by
  refine ⟨?_, safe_divide_guard⟩
  intro row hrow
  obtain ⟨code, -, rfl⟩ := List.mem_map.mp hrow
  constructor
  · intro h
    show safe_divide (some (nbJointes9 dfc code))
      (some (nbTotal9 dfp code)) = 0
    have h0 : nbTotal9 dfp code = 0 := h
    rw [h0]
    exact safe_divide_guard _ _ (Or.inl rfl)
  · intro h
    show safe_divide (some (nbAnomalies9 dfa code))
      (some (nbJointes9 dfc code)) = 0
    have h0 : nbJointes9 dfc code = 0 := h
    rw [h0]
    exact safe_divide_guard _ _ (Or.inl rfl)

/-- Witness for C6 at a concrete input: a producer whose single plantation
row has no plantation code counts zero plantations and zero joins, and
both of its rates are zero. -/
theorem C6_witness :
    (rollupRow [⟨"P1", none, none⟩] [] [] "P1").taux_couverture_geo = 0
      ∧ (rollupRow [⟨"P1", none, none⟩] [] [] "P1").taux_anomalies = 0 := by
  have hmem : rollupRow [⟨"P1", none, none⟩] [] [] "P1"
      ∈ rollup [⟨"P1", none, none⟩] [] [] := by
    simp [rollup, keepFirstBy, keepFirstByAux]
  have h := (C6_zero_division_guard [⟨"P1", none, none⟩] [] []).1 _ hmem
  exact ⟨h.1 rfl, h.2 rfl⟩

theorem determine_utm_epsg_ne_4326 (cm : Option (ℚ × ℚ)) :
    determine_utm_epsg cm ≠ 4326 := by
  match cm with
  | none => simp [determine_utm_epsg]
  | some (lon, lat) =>
    rw [determine_utm_epsg]
    have h2 : (1 : ℤ) ≤ (if pyInt ((lon + 180) / 6) + 1 < 1 then 1
        else pyInt ((lon + 180) / 6) + 1) := by
      by_cases h : pyInt ((lon + 180) / 6) + 1 < 1
      · rw [if_pos h]
      · rw [if_neg h]; omega
    by_cases hlat : 0 ≤ lat
    · rw [if_pos hlat]; omega
    · rw [if_neg hlat]; omega

/-- C7: the computed parcel area of script 7 is never derived from the
unprojected geographic CRS: the EPSG actually used is the UTM zone derived
from the mean centroid of the dataset — zone = int((lon + 180) / 6) + 1,
base 32600 for a northern mean latitude and 32700 for a southern one — or
the fixed fallback 3857 when the selection input is absent or the
reprojection fails, and it is never 4326; for a mean longitude in
[−180, 180] the selected zone lies in [1, 61]. -/
theorem C7_projected_crs_selection (cm : Option (ℚ × ℚ))
    (ok : ℤ → Bool) :
    (surfaceEpsg cm ok ≠ 4326)
      ∧ determine_utm_epsg none = 3857
      ∧ (∀ lon lat : ℚ, cm = some (lon, lat) → -180 ≤ lon →
          determine_utm_epsg cm
              = (if 0 ≤ lat then 32600 else 32700)
                  + (pyInt ((lon + 180) / 6) + 1)
            ∧ 1 ≤ pyInt ((lon + 180) / 6) + 1
            ∧ (lon ≤ 180 → pyInt ((lon + 180) / 6) + 1 ≤ 61))
      ∧ (ok (determine_utm_epsg cm) = false → surfaceEpsg cm ok = 3857) := by
  refine ⟨?_, rfl, ?_, ?_⟩
  · rw [surfaceEpsg]
    by_cases h : ok (determine_utm_epsg cm) = true
    · rw [if_pos h]
      exact determine_utm_epsg_ne_4326 cm
    · rw [if_neg h]
      omega
  · rintro lon lat rfl hlon
    have harg : (0 : ℚ) ≤ (lon + 180) / 6 := by
      apply div_nonneg <;> linarith
    have hfloor : pyInt ((lon + 180) / 6) = ⌊(lon + 180) / 6⌋ := by
      rw [pyInt, if_pos harg]
    have hzone1 : 1 ≤ pyInt ((lon + 180) / 6) + 1 := by
      rw [hfloor]
      have : (0 : ℤ) ≤ ⌊(lon + 180) / 6⌋ := Int.le_floor.mpr (by exact_mod_cast harg)
      omega
    refine ⟨?_, hzone1, ?_⟩
    · simp only [determine_utm_epsg]
      have hnlt : ¬(pyInt ((lon + 180) / 6) + 1 < 1) := by omega
      rw [if_neg hnlt]
    · intro hlon2
      rw [hfloor]
      have hle : (lon + 180) / 6 ≤ 60 := by
        rw [div_le_iff₀ (by norm_num : (0:ℚ) < 6)]
        linarith
      have : ⌊(lon + 180) / 6⌋ ≤ 60 := by
        have := Int.floor_le_floor (α := ℚ) hle
        simpa using this
      omega
  · intro h
    rw [surfaceEpsg, if_neg (by simp [h])]

/-- Witness for C7 at a concrete input: a dataset centred in Côte d'Ivoire
(mean longitude −5.5, mean latitude 7) selects UTM zone 30 north, EPSG
32630, which is not the geographic EPSG 4326. -/
theorem C7_witness :
    surfaceEpsg (some (-11/2, 7)) (fun _ => true) ≠ 4326
      ∧ determine_utm_epsg (some (-11/2, 7)) = 32630 := by
  have h := C7_projected_crs_selection (some (-11/2, 7)) (fun _ => true)
  refine ⟨h.1, ?_⟩
  rw [(h.2.2.1 (-11/2) 7 rfl (by norm_num)).1]
  rw [if_pos (by norm_num : (0:ℚ) ≤ 7)]
  rw [pyInt, if_pos (by norm_num : (0:ℚ) ≤ ((-11/2 : ℚ) + 180) / 6)]
  rw [show ((-11/2 : ℚ) + 180) / 6 = 349/12 by norm_num]
  have hf : ⌊(349/12 : ℚ)⌋ = 29 := by
    rw [Int.floor_eq_iff]
    constructor <;> norm_num
  rw [hf]
  norm_num

theorem keepFirstByAux_sublist [DecidableEq γ] (f : δ → γ) :
    ∀ (l : List δ) (seen : List γ), (keepFirstByAux f l seen).Sublist l := by
  intro l
  induction l with
  | nil => intro seen; simp [keepFirstByAux]
  | cons x xs ih =>
    intro seen
    rw [keepFirstByAux]
    by_cases hs : f x ∈ seen
    · rw [if_pos hs]
      exact (ih seen).cons x
    · rw [if_neg hs]
      exact (ih (f x :: seen)).cons₂ x

theorem keepFirstByAux_spec [DecidableEq γ] (f : δ → γ) :
    ∀ (l : List δ) (seen : List γ),
      ((keepFirstByAux f l seen).map f).Nodup
      ∧ ∀ y ∈ keepFirstByAux f l seen, f y ∉ seen := by
  intro l
  induction l with
  | nil =>
    intro seen
    exact ⟨List.nodup_nil, by simp [keepFirstByAux]⟩
  | cons x xs ih =>
    intro seen
    rw [keepFirstByAux]
    by_cases hs : f x ∈ seen
    · rw [if_pos hs]
      exact ih seen
    · rw [if_neg hs]
      obtain ⟨hnd, hnotin⟩ := ih (f x :: seen)
      refine ⟨?_, ?_⟩
      · rw [List.map_cons, List.nodup_cons]
        refine ⟨?_, hnd⟩
        intro hmem
        obtain ⟨y, hy, he⟩ := List.mem_map.mp hmem
        exact hnotin y hy (by rw [he]; exact List.mem_cons_self _ _)
      · intro y hy
        rcases List.mem_cons.mp hy with rfl | hy'
        · exact hs
        · intro hyseen
          exact hnotin y hy' (List.mem_cons_of_mem _ hyseen)

theorem mem_keepFirstByAux [DecidableEq γ] (f : δ → γ) :
    ∀ (l : List δ) (seen : List γ) (y : δ),
      y ∈ keepFirstByAux f l seen ↔
        f y ∉ seen ∧ l.find? (fun z => decide (f z = f y)) = some y := by
  intro l
  induction l with
  | nil =>
    intro seen y
    simp [keepFirstByAux]
  | cons x xs ih =>
    intro seen y
    rw [keepFirstByAux, List.find?]
    by_cases hs : f x ∈ seen
    · rw [if_pos hs]
      cases hxy : decide (f x = f y)
      · rw [ih]
      · have hfxy : f x = f y := of_decide_eq_true hxy
        constructor
        · intro hy
          exact absurd (hfxy ▸ hs) ((ih seen y).mp hy).1
        · rintro ⟨hnot, he⟩
          injection he with he
          subst he
          exact absurd hs (hfxy ▸ hnot)
    · rw [if_neg hs]
      cases hxy : decide (f x = f y)
      · have hfxy : f x ≠ f y := of_decide_eq_false hxy
        rw [List.mem_cons, ih]
        constructor
        · rintro (rfl | ⟨hnot, he⟩)
          · exact absurd rfl hfxy
          · refine ⟨fun hin => hnot (List.mem_cons_of_mem _ hin), he⟩
        · rintro ⟨hnot, he⟩
          refine Or.inr ⟨?_, he⟩
          intro hin
          rcases List.mem_cons.mp hin with h | h
          · exact hfxy h.symm
          · exact hnot h
      · have hfxy : f x = f y := of_decide_eq_true hxy
        rw [List.mem_cons, ih]
        constructor
        · rintro (rfl | ⟨hnot, -⟩)
          · exact ⟨hfxy ▸ hs, rfl⟩
          · exact absurd (List.mem_cons_self _ _) (hfxy ▸ hnot)
        · rintro ⟨-, he⟩
          injection he with he
          exact Or.inl he.symm

theorem mem_keepFirstBy [DecidableEq γ] (f : δ → γ) (l : List δ) (y : δ) :
    y ∈ keepFirstBy f l ↔ l.find? (fun z => decide (f z = f y)) = some y := by
  rw [keepFirstBy, mem_keepFirstByAux]
  simp

/-- C10 as stated fails on the code at a concrete input: with rows
(A, G), (A, H), (B, H) the identifier deduplication first drops (A, H) —
the first row carrying geometry H — and the geometry deduplication then
keeps (B, H), a later occurrence of that geometry, so for byte-identical
geometries it is not always the first occurrence of the raw input that is
kept. -/
theorem C10_counterexample :
    cleanDedup true [⟨"A", some "G"⟩, ⟨"A", some "H"⟩, ⟨"B", some "H"⟩]
        = [⟨"A", some "G"⟩, ⟨"B", some "H"⟩]
      ∧ (⟨"A", some "H"⟩ : GeoRow7)
          ∉ cleanDedup true [⟨"A", some "G"⟩, ⟨"A", some "H"⟩, ⟨"B", some "H"⟩]
      ∧ (⟨"B", some "H"⟩ : GeoRow7)
          ∈ cleanDedup true [⟨"A", some "G"⟩, ⟨"A", some "H"⟩, ⟨"B", some "H"⟩]
      ∧ (⟨"A", some "H"⟩ : GeoRow7).geomWkb
          = (⟨"B", some "H"⟩ : GeoRow7).geomWkb := by
  have he : cleanDedup true [⟨"A", some "G"⟩, ⟨"A", some "H"⟩, ⟨"B", some "H"⟩]
      = [⟨"A", some "G"⟩, ⟨"B", some "H"⟩] := by
    simp [cleanDedup, keepFirstBy, keepFirstByAux]
  refine ⟨he, ?_, ?_, rfl⟩
  · rw [he]
    simp
  · rw [he]
    simp

/-- C10 (amended): after the deduplication steps of script 7 every
Farms_ID value and every exact geometry occurs at most once in the output,
which is an order-preserving subsequence of the input; the Farms_ID step
keeps exactly the first row carrying each identifier, and the geometry
step then keeps exactly the first remaining row carrying each geometry —
first relative to the identifier-deduplicated collection, which can differ
from the first occurrence in the raw input; dropped rows are logged, not
emitted as anomaly records. -/
theorem C10_dedup_keep_first (rows : List GeoRow7) :
    ((cleanDedup true rows).map GeoRow7.farmsId).Nodup
      ∧ ((cleanDedup true rows).map GeoRow7.geomWkb).Nodup
      ∧ (cleanDedup true rows).Sublist rows
      ∧ (∀ y, y ∈ keepFirstBy GeoRow7.farmsId rows ↔
          rows.find? (fun z => decide (z.farmsId = y.farmsId)) = some y)
      ∧ (∀ y, y ∈ cleanDedup true rows ↔
          (keepFirstBy GeoRow7.farmsId rows).find?
            (fun z => decide (z.geomWkb = y.geomWkb)) = some y) := by
  have hc : cleanDedup true rows
      = keepFirstBy GeoRow7.geomWkb (keepFirstBy GeoRow7.farmsId rows) := by
    rw [cleanDedup, if_pos rfl]
  refine ⟨?_, ?_, ?_, ?_, ?_⟩
  · rw [hc]
    have hsub : (keepFirstBy GeoRow7.geomWkb
        (keepFirstBy GeoRow7.farmsId rows)).Sublist
          (keepFirstBy GeoRow7.farmsId rows) :=
      keepFirstByAux_sublist GeoRow7.geomWkb
        (keepFirstBy GeoRow7.farmsId rows) []
    have hnd : ((keepFirstBy GeoRow7.farmsId rows).map
        GeoRow7.farmsId).Nodup :=
      (keepFirstByAux_spec GeoRow7.farmsId rows []).1
    exact hnd.sublist (hsub.map _)
  · rw [hc]
    exact (keepFirstByAux_spec GeoRow7.geomWkb _ []).1
  · rw [hc]
    exact (keepFirstByAux_sublist GeoRow7.geomWkb
        (keepFirstBy GeoRow7.farmsId rows) []).trans
      (keepFirstByAux_sublist GeoRow7.farmsId rows [])
  · intro y
    exact mem_keepFirstBy GeoRow7.farmsId rows y
  · intro y
    rw [hc]
    exact mem_keepFirstBy GeoRow7.geomWkb
      (keepFirstBy GeoRow7.farmsId rows) y

/-- Witness for C5 at the concrete input of spec Example 4: identifier
C042 appears twice in the producer table with different values, and two
duplicate records are produced — neither row is dropped. -/
theorem C5_witness :
    (detect_duplicates [⟨"C042", "v1"⟩, ⟨"C042", "v2"⟩] "code_producteur"
        "Producteurs").countP (fun a => a.identifiant == "C042") = 2 := by
  have h := (C5_duplicates_flag_all_rows [⟨"C042", "v1"⟩, ⟨"C042", "v2"⟩]
    "code_producteur" "Producteurs" "C042").1
  rw [h]
  rfl

/-- Witness for C10 at a concrete input: after cleaning three rows with a
duplicated identifier, the output identifiers are pairwise distinct. -/
theorem C10_witness :
    ((cleanDedup true [⟨"A", some "G"⟩, ⟨"A", some "H"⟩, ⟨"B", some "H"⟩]).map
        GeoRow7.farmsId).Nodup :=
  (C10_dedup_keep_first
    [⟨"A", some "G"⟩, ⟨"A", some "H"⟩, ⟨"B", some "H"⟩]).1

end GeoAudit
